import Mathlib

/-!
Shallow embedding of the SphinxQL client library core
(`src/sphinxql.cc`, `include/sphinxql/sphinxql.h`).

The wire transport (the mysql client primitives) is an external
collaborator of the library; it is modelled as a pending stream of raw
result sets carried in the connection state, plus explicit success flags
and status codes for the fallible transport calls.  Exceptions become
`Except SqlError`.  Machine integers are modelled as `Nat`/`Int` with
explicit clamping/wrapping where the C code converts.
-/

namespace SphinxQLModel

/-- Error values thrown by the library: `SphinxQL::Exception` (`exc`),
`SphinxQL::TimeoutException` (`timeout`) and `std::out_of_range`
(`outOfRange`), each carrying its message. -/
inductive SqlError where
  | exc (msg : String)
  | timeout (msg : String)
  | outOfRange (msg : String)
  deriving Repr, DecidableEq

/-- One raw result set as delivered by the transport: a column count
(`mysql_num_fields`), the column names (`mysql_fetch_fields`), and the
rows, each cell `none` when the value is a database NULL. -/
structure RawResult where
  cols : Nat
  colNames : List String
  rows : List (List (Option String))
  deriving Repr, DecidableEq

/-- A raw result set is well formed when every row carries exactly
`cols` cells and there is one column name per column. -/
def RawResult.WF (r : RawResult) : Prop :=
  r.colNames.length = r.cols ∧ ∀ row ∈ r.rows, row.length = r.cols

/-- `SphinxQL::Row`: a non-owning view over one row.  `origin` records
whether the `origin` pointer is bound (non-null), `data` the row cells,
`fields` the column count and `fieldIter` the sequential read cursor. -/
structure Row where
  origin : Bool
  data : List (Option String)
  fields : Nat
  fieldIter : Nat
  deriving Repr, DecidableEq

/-- `Row::Row()`: default-constructed row — null origin, null data,
zero fields, cursor at zero. -/
def Row.mkEmpty : Row := ⟨false, [], 0, 0⟩

/-- `Row::size()`. -/
def Row.size (r : Row) : Nat := r.fields

/-- `isspace` characters skipped by the `strtol` family. -/
def isSpaceChar (c : Char) : Bool :=
  c = ' ' || c = '\t' || c = '\n' || c = '\r' || c = Char.ofNat 11 || c = Char.ofNat 12

/-- Value of a run of decimal digits. -/
def digitsVal (ds : List Char) : Nat :=
  ds.foldl (fun acc c => acc * 10 + (c.toNat - 48)) 0

/-- Front end shared by the `strtol` family: skip whitespace, read an
optional sign, then the longest run of decimal digits.  Returns `none`
exactly when no digit is consumed, i.e. when the C call leaves
`end == data`. -/
def parseDecimal (s : String) : Option (Bool × Nat) :=
  let cs := s.data.dropWhile isSpaceChar
  let sr : Bool × List Char :=
    match cs with
    | '-' :: rest => (true, rest)
    | '+' :: rest => (false, rest)
    | _ => (false, cs)
  let ds := sr.2.takeWhile Char.isDigit
  if ds.isEmpty then none
  else some (sr.1, digitsVal ds)

/-- `strtoll`/`strtol` on a 64-bit platform: negate on a minus sign and
clamp into the `int64_t` range on overflow. -/
def strtollVal (p : Bool × Nat) : Int :=
  let m : Int := if p.1 then -(p.2 : Int) else (p.2 : Int)
  max (-(2 ^ 63)) (min m (2 ^ 63 - 1))

/-- `strtoull`/`strtoul` on a 64-bit platform: clamp the magnitude into
the `uint64_t` range on overflow, otherwise negate modulo `2^64` on a
minus sign. -/
def strtoulVal (p : Bool × Nat) : Nat :=
  if p.2 > 2 ^ 64 - 1 then 2 ^ 64 - 1
  else if p.1 then (2 ^ 64 - p.2) % 2 ^ 64 else p.2

/-- Conversion of a 64-bit value into `int32_t` (two's-complement wrap). -/
def wrapI32 (v : Int) : Int := ((v + 2 ^ 31) % 2 ^ 32) - 2 ^ 31

/-- Truncation of a 64-bit value into `uint32_t`. -/
def wrapU32 (v : Nat) : Nat := v % 2 ^ 32

/-- Textual parse used by the `int64_t` specialization of
`Row::convertResult`. -/
def parseI64 (s : String) : Option Int := (parseDecimal s).map strtollVal

/-- Textual parse used by the `int32_t` specialization. -/
def parseI32 (s : String) : Option Int :=
  (parseDecimal s).map (fun p => wrapI32 (strtollVal p))

/-- Textual parse used by the `uint64_t` specialization. -/
def parseU64 (s : String) : Option Nat := (parseDecimal s).map strtoulVal

/-- Textual parse used by the `uint32_t` specialization. -/
def parseU32 (s : String) : Option Nat :=
  (parseDecimal s).map (fun p => wrapU32 (strtoulVal p))

/-- Shared shape of every numeric specialization of
`Row::convertResult` (`int32_t`, `int64_t`, `uint32_t`, `uint64_t`,
`float`, `double`): NULL input returns the caller-supplied default;
otherwise run the type's `strto*` parse and return its value when at
least one character was consumed (`end != data`), the default when not. -/
def convertResultNum {α : Type} (parse : String → Option α)
    (data : Option String) (defaultValue : α) : α :=
  match data with
  | none => defaultValue
  | some s =>
    match parse s with
    | some val => val
    | none => defaultValue

/-- `Row::convertResult<int32_t>`. -/
def convertResultI32 (data : Option String) (defaultValue : Int) : Int :=
  convertResultNum parseI32 data defaultValue

/-- `Row::convertResult<int64_t>`. -/
def convertResultI64 (data : Option String) (defaultValue : Int) : Int :=
  convertResultNum parseI64 data defaultValue

/-- `Row::convertResult<uint32_t>`. -/
def convertResultU32 (data : Option String) (defaultValue : Nat) : Nat :=
  convertResultNum parseU32 data defaultValue

/-- `Row::convertResult<uint64_t>`. -/
def convertResultU64 (data : Option String) (defaultValue : Nat) : Nat :=
  convertResultNum parseU64 data defaultValue

/-- `Row::convertResult<std::string>`: NULL returns the default,
otherwise a direct copy of the text. -/
def convertResultStr (data : Option String) (defaultValue : String) : String :=
  match data with
  | none => defaultValue
  | some s => s

/-- `Row::operator>>`: `checkBounds(fieldIter)` throws
`std::out_of_range` when the cursor has reached `fields`; otherwise the
cell at the cursor is converted with the destination's prior value as
the default and the cursor advances.  Parameterized by the
type-specific conversion. -/
def Row.shiftRead {α : Type} (conv : Option String → α → α) (row : Row)
    (value : α) : Except SqlError (α × Row) :=
  if row.fieldIter < row.fields then
    .ok (conv (row.data.getD row.fieldIter none) value,
      { row with fieldIter := row.fieldIter + 1 })
  else
    .error (.outOfRange ("Row column out of range: " ++ toString row.fieldIter))

/-- `Row::operator[]`: `checkBounds(index)` then raw cell access;
`none` models a SQL NULL (`nullptr` cell). -/
def Row.get (row : Row) (index : Nat) : Except SqlError (Option String) :=
  if index < row.fields then .ok (row.data.getD index none)
  else .error (.outOfRange ("Row column out of range: " ++ toString index))

/-- `std::map::find`: association-list lookup of a key. -/
def assocFind {β : Type} : List (String × β) → String → Option β
  | [], _ => none
  | p :: m, f => if f = p.1 then some p.2 else assocFind m f

/-- `std::map::emplace` used by `MetaReader`: insert only when the key
is not yet present (the first insertion wins). -/
def metaInsert (m : List (String × String)) (k v : String) :
    List (String × String) :=
  if (assocFind m k).isSome then m else m ++ [(k, v)]

/-- One iteration body of the `MetaReader` constructor loop:
`row >> key >> value` on a freshly bound row of a result with `cols`
columns, with `key` and `value` default-constructed empty.  The reads
bounds-check the cursor (`checkBounds`), so fewer than two columns
raises `std::out_of_range`. -/
def metaReadRow (cols : Nat) (r : List (Option String)) :
    Except SqlError (String × String) := do
  let key ← if 0 < cols then
      Except.ok (convertResultStr (r.getD 0 none) "")
    else Except.error (SqlError.outOfRange "Row column out of range: 0")
  let value ← if 1 < cols then
      Except.ok (convertResultStr (r.getD 1 none) "")
    else Except.error (SqlError.outOfRange "Row column out of range: 1")
  return (key, value)

/-- The `MetaReader` constructor loop: `while (result.getNextRow(row))`
reads key/value pairs, skipping rows whose key is empty.  A fetched row
of a zero-column result makes `getNextRow` return `row.size() > 0 =
false`, ending the loop. -/
def metaLoop (cols : Nat) :
    List (List (Option String)) → List (String × String) →
    Except SqlError (List (String × String))
  | [], acc => .ok acc
  | r :: rest, acc =>
    if cols = 0 then .ok acc
    else
      match metaReadRow cols r with
      | .error er => .error er
      | .ok kv =>
        metaLoop cols rest (if kv.1 = "" then acc else metaInsert acc kv.1 kv.2)

/-- The key→value map a `MetaReader` builds from a diagnostics result. -/
def metaValues (r : RawResult) : Except SqlError (List (String × String)) :=
  metaLoop r.cols r.rows []

/-- `std::map::operator[]` assignment used by `ResultIndex::initialize`:
the last assignment to a key wins. -/
def mapAssign (m : List (String × Nat)) (k : String) (v : Nat) :
    List (String × Nat) :=
  if (assocFind m k).isSome then m.map (fun p => if p.1 = k then (k, v) else p)
  else m ++ [(k, v)]

/-- `ResultIndex::initialize`: `index[fields[i].name] = i` for each
column position `i`. -/
def buildIndex (names : List String) : List (String × Nat) :=
  names.enum.foldl (fun m p => mapAssign m p.2 p.1) []

/-- `ResultIndex::getFieldIndex`: look the field up, throwing
`std::out_of_range` when absent. -/
def getFieldIndex (idx : List (String × Nat)) (field : String) :
    Except SqlError Nat :=
  match assocFind idx field with
  | some i => .ok i
  | none => .error (.outOfRange ("No such field in result set: " ++ field))

/-- `SphinxQL::Result`: the stored raw result set, the
`mysql_fetch_row` cursor, and the optional merged diagnostics map
(`MetaReader`), present exactly when `addMeta` ran. -/
structure ResultM where
  raw : RawResult
  cursor : Nat
  metaVals : Option (List (String × String))
  deriving Repr, DecidableEq

/-- `Result::Result(MYSQL*)` after a successful `mysql_store_result`:
fresh cursor, no diagnostics map. -/
def mkResult (r : RawResult) : ResultM := ⟨r, 0, none⟩

/-- `Result::size()`: the row count. -/
def ResultM.size (res : ResultM) : Nat := res.raw.rows.length

/-- `Result::getNextRow`: fetch the row at the cursor.  On success the
row binds to this result's data with the read cursor reset; when
exhausted the row is reset to the default state.  Returns
`row.size() > 0`. -/
def ResultM.getNextRow (res : ResultM) : Bool × ResultM × Row :=
  match res.raw.rows.get? res.cursor with
  | some d =>
    (decide (0 < res.raw.cols), { res with cursor := res.cursor + 1 },
      ⟨true, d, res.raw.cols, 0⟩)
  | none => (false, res, ⟨false, [], 0, 0⟩)

/-- `Result::getColumnIndex`: build the name→index map from the column
metadata and look the field up.  (The C++ builds the map lazily on
first use; the map built is the same.) -/
def ResultM.getColumnIndex (res : ResultM) (field : String) :
    Except SqlError Nat :=
  getFieldIndex (buildIndex res.raw.colNames) field

/-- `Result::addMeta`: run a `MetaReader` over the diagnostics result
and attach the map; the raw diagnostics result is then discarded. -/
def ResultM.addMeta (res : ResultM) (meta : RawResult) :
    Except SqlError ResultM :=
  match metaValues meta with
  | .error er => .error er
  | .ok m => .ok { res with metaVals := some m }

/-- `Result::getMeta`: throws `Exception("No SHOW META result.")` when
no diagnostics map was merged; otherwise `MetaReader::getValue`, which
returns the empty string for a missing key. -/
def ResultM.getMeta (res : ResultM) (v : String) : Except SqlError String :=
  match res.metaVals with
  | none => .error (.exc "No SHOW META result.")
  | some m => .ok ((assocFind m v).getD "")

/-- `Row::getValue<T>`: requires a bound row, resolves the column by
name in the owning result, bounds-checked raw access, then
`convertResult<T>` with a default-constructed default (`dflt` models
`T{}`), parameterized by the type's conversion. -/
def Row.getValueWith {α : Type} (conv : Option String → α → α) (dflt : α)
    (res : ResultM) (row : Row) (field : String) : Except SqlError α :=
  if row.origin then do
    let idx ← res.getColumnIndex field
    let cell ← row.get idx
    return conv cell dflt
  else .error (.exc "Row is probably not initialized!")

/-- `Query::PrivateData`: connected flag, the first-result-pending flag,
the registered (statement, wants-diagnostics) entries, and the
transport's pending reply stream of raw result sets (the mysql
connection's not-yet-stored results). -/
structure QueryData where
  connected : Bool
  firstToRetrieve : Bool
  queries : List (String × Bool)
  stream : List RawResult
  deriving Repr, DecidableEq

/-- `Query::PrivateData` constructor: not connected, first result
pending, no entries, nothing pending on the wire. -/
def QueryData.init : QueryData := ⟨false, true, [], []⟩

/-- `Query::PrivateData::clear`. -/
def QueryData.clear (st : QueryData) : QueryData :=
  { st with firstToRetrieve := true, queries := [] }

/-- `Query::PrivateData::addQuery`. -/
def QueryData.addQuery (st : QueryData) (q : String) (meta : Bool) : QueryData :=
  { st with queries := st.queries ++ [(q, meta)] }

/-- `Query::PrivateData::getQueryString`: stream each statement into
the payload, appending `"SHOW META; "` right after any entry whose
wants-diagnostics flag is set. -/
def getQueryString (queries : List (String × Bool)) : String :=
  queries.foldl (fun acc q => acc ++ q.1 ++ (if q.2 then "SHOW META; " else "")) ""

/-- `mysql_store_result` wrapped by the `Result` constructor: pop the
next pending result set, failing like the constructor does when the
transport has none. -/
def QueryData.storeResult (st : QueryData) :
    Except SqlError ResultM × QueryData :=
  match st.stream with
  | [] => (.error (.exc "mysql_store_result error: "), st)
  | r :: rest => (.ok (mkResult r), { st with stream := rest })

/-- `Query::PrivateData::nextResult`: the first retrieval after a
dispatch stores a result unconditionally (clearing the flag first);
later retrievals require `mysql_more_results` (a nonempty pending
stream, with `mysql_next_result` succeeding) and otherwise throw
`Exception("No result returned")`. -/
def QueryData.nextResult (st : QueryData) :
    Except SqlError ResultM × QueryData :=
  if st.firstToRetrieve then
    QueryData.storeResult { st with firstToRetrieve := false }
  else if !st.stream.isEmpty then
    QueryData.storeResult st
  else
    (.error (.exc "No result returned"), st)

/-- `CR_SERVER_GONE_ERROR` from `errmsg.h`. -/
def CR_SERVER_GONE_ERROR : Nat := 2006

/-- `CR_SERVER_LOST` from `errmsg.h`. -/
def CR_SERVER_LOST : Nat := 2013

/-- `Query::PrivateData::execute`: `mysql_query` on the built payload
returns `status` (0 on success, the failure code otherwise); a nonzero
status throws `TimeoutException` for the distinguished server-gone /
connection-lost codes and plain `Exception` for every other failure. -/
def executeStatus (status : Nat) (errMsg : String) : Except SqlError Unit :=
  if status ≠ 0 then
    if status = CR_SERVER_GONE_ERROR ∨ status = CR_SERVER_LOST then
      .error (.timeout errMsg)
    else .error (.exc errMsg)
  else .ok ()

/-- One entry of the `Response::fill` loop body: pull the entry's data
result via `nextResult`; when the entry wants diagnostics, immediately
pull one further result and merge it via `addMeta`. -/
def fillStep (e : String × Bool) (st : QueryData) :
    Except SqlError ResultM × QueryData :=
  match st.nextResult with
  | (.error er, st') => (.error er, st')
  | (.ok res, st') =>
    if e.2 then
      match st'.nextResult with
      | (.error er, st'') => (.error er, st'')
      | (.ok metaRes, st'') =>
        match res.addMeta metaRes.raw with
        | .error er => (.error er, st'')
        | .ok res' => (.ok res', st'')
    else (.ok res, st')

/-- `Response::fill(Query&)`: iterate the registered entries in order,
pushing each assembled Result; the first error aborts the remaining
entries and propagates, the connection keeping whatever stream state
the failure left behind. -/
def fillLoop :
    List (String × Bool) → QueryData → Except SqlError (List ResultM) × QueryData
  | [], st => (.ok [], st)
  | e :: rest, st =>
    match fillStep e st with
    | (.error er, st') => (.error er, st')
    | (.ok res, st') =>
      match fillLoop rest st' with
      | (.error er, st'') => (.error er, st'')
      | (.ok more, st'') => (.ok (res :: more), st'')

/-- `Response::fill` applied to one connection's registered entries. -/
def QueryData.fill (st : QueryData) : Except SqlError (List ResultM) × QueryData :=
  fillLoop st.queries st

/-- `Response::next`: pop and return the earliest undelivered Result,
or the absent sentinel (`none`, modelling the null `unique_ptr`) once
the queue is empty. -/
def responseNext : List ResultM → Option ResultM × List ResultM
  | [] => (none, [])
  | r :: rest => (some r, rest)

/-- One connection participating in an `AsyncQuery`: the wrapped
`Query` state plus the simulated transport outcome of this round's
`mysql_send_query` and `mysql_read_query_result` calls. -/
structure ConnSim where
  qd : QueryData
  sendOk : Bool
  waitOk : Bool
  deriving Repr, DecidableEq

/-- `AsyncQuery`: the pool queue of idle connections (`connections`,
front first), the active round's connections in registration order
(`queries`), and a ghost counter of how many `Query` objects were
constructed-and-connected so far. -/
structure AsyncSt where
  connections : List ConnSim
  queries : List ConnSim
  created : Nat
  deriving Repr, DecidableEq

/-- A freshly constructed and connected `Query` drawn from the pool's
shared host/socket and config; its transport calls succeed unless the
round injects a failure elsewhere. -/
def freshConn : ConnSim :=
  ⟨{ QueryData.init with connected := true }, true, true⟩

/-- `AsyncQuery::add(query, meta)`: reuse the front pooled connection
when the pool is nonempty, otherwise construct and connect a new one;
either way register the entry on it and append it to the round. -/
def AsyncSt.add (st : AsyncSt) (q : String) (meta : Bool) : AsyncSt :=
  match st.connections with
  | w :: rest =>
    { st with connections := rest,
              queries := st.queries ++ [{ w with qd := w.qd.addQuery q meta }] }
  | [] =>
    { st with created := st.created + 1,
              queries := st.queries ++
                [{ freshConn with qd := freshConn.qd.addQuery q meta }] }

/-- `AsyncQuery::add(Query&&)`: connect the supplied object if needed;
an empty one joins the pool, one carrying entries joins the round. -/
def AsyncSt.addConn (st : AsyncSt) (c : ConnSim) : AsyncSt :=
  let c := if c.qd.connected then c
    else { c with qd := { c.qd with connected := true } }
  if c.qd.queries.isEmpty then
    { st with connections := st.connections ++ [c] }
  else
    { st with queries := st.queries ++ [c] }

/-- `Query::clear` applied to a pooled connection. -/
def ConnSim.clearConn (c : ConnSim) : ConnSim := { c with qd := c.qd.clear }

/-- `AsyncQuery::clear`: clear every round connection and push it back
onto the pool, then empty the round. -/
def AsyncSt.clearAll (st : AsyncSt) : AsyncSt :=
  { st with connections := st.connections ++ st.queries.map ConnSim.clearConn,
            queries := [] }

/-- `Query::PrivateData::asyncExecute`: reset the first-result flag,
build the payload and `mysql_send_query` it.  `reply` is the stream of
raw result sets the daemon will produce for this connection's payload;
it becomes the connection's pending stream (readable only after the
wait phase, which is the only order the library uses). -/
def ConnSim.asyncExecute (reply : List RawResult) (c : ConnSim) :
    Except SqlError ConnSim :=
  let c := { c with qd := { c.qd with firstToRetrieve := true } }
  if c.sendOk then .ok { c with qd := { c.qd with stream := reply } }
  else .error (.exc "mysql_send_query failed: ")

/-- `Query::PrivateData::waitForAsyncResult`:
`mysql_read_query_result` outcome. -/
def ConnSim.waitForAsyncResult (c : ConnSim) : Except SqlError Unit :=
  if c.waitOk then .ok () else .error (.exc "mysql_read_query_result failed: ")

/-- The send phase of `AsyncQuery::launch`: fire `asyncExecute` on
every round connection in order (`reply i` being the daemon's reply to
the `i`-th connection); the first failure propagates. -/
def sendAll (reply : Nat → List RawResult) :
    Nat → List ConnSim → Except SqlError (List ConnSim)
  | _, [] => .ok []
  | i, c :: rest =>
    match c.asyncExecute (reply i) with
    | .error er => .error er
    | .ok c' =>
      match sendAll reply (i + 1) rest with
      | .error er => .error er
      | .ok rest' => .ok (c' :: rest')

/-- The wait phase of `AsyncQuery::launch`: wait on every round
connection in order; the first failure propagates. -/
def waitAll : List ConnSim → Except SqlError Unit
  | [] => .ok ()
  | c :: rest =>
    match c.waitForAsyncResult with
    | .error er => .error er
    | .ok _ => waitAll rest

/-- `Response::Response(AsyncQuery&)`: fill from each round connection
in registration order, concatenating the per-connection Result
sequences.  The post-fill connection states are returned even on
failure, because `launch`'s scoped cleanup still pushes them to the
pool. -/
def fillAsync : List ConnSim → Except SqlError (List ResultM) × List ConnSim
  | [] => (.ok [], [])
  | c :: rest =>
    match c.qd.fill with
    | (.error er, qd') => (.error er, { c with qd := qd' } :: rest)
    | (.ok rs, qd') =>
      match fillAsync rest with
      | (.error er, rest') => (.error er, { c with qd := qd' } :: rest')
      | (.ok more, rest') => (.ok (rs ++ more), { c with qd := qd' } :: rest')

/-- `AsyncQuery::launch`: discard the remaining pooled connections;
send on every round connection, then wait on each; a send/wait failure
clears the round (destroying its connections) and propagates.  The
response is then filled, and — success or fill failure alike — the
scoped cleanup clears every round connection and pushes it onto the
pool. -/
def AsyncSt.launch (reply : Nat → List RawResult) (st : AsyncSt) :
    Except SqlError (List ResultM) × AsyncSt :=
  match sendAll reply 0 st.queries with
  | .error er => (.error er, { st with connections := [], queries := [] })
  | .ok qs1 =>
    match waitAll qs1 with
    | .error er => (.error er, { st with connections := [], queries := [] })
    | .ok _ =>
      let fr := fillAsync qs1
      (fr.1, { st with connections := fr.2.map ConnSim.clearConn, queries := [] })

/-- The `k` single-statement adds of the pool-reuse scenario, none
requesting diagnostics. -/
def AsyncSt.addAll (st : AsyncSt) (stmts : List String) : AsyncSt :=
  stmts.foldl (fun s q => s.add q false) st

/-- One registered entry together with the raw result sets the daemon
produces for it: its data result and, when it was registered with
wants-diagnostics, the diagnostics result that follows. -/
structure EntrySim where
  stmt : String
  dataR : RawResult
  metaR : Option RawResult
  deriving Repr, DecidableEq

/-- The (statement, wants-diagnostics) pair registered for an entry. -/
def EntrySim.entry (it : EntrySim) : String × Bool := (it.stmt, it.metaR.isSome)

/-- The registered entry list of a batch. -/
def entriesOf (items : List EntrySim) : List (String × Bool) :=
  items.map EntrySim.entry

/-- The daemon's reply stream for a batch: one data result per entry in
registration order, the diagnostics result (when requested)
immediately after its entry's data result. -/
def streamOf (items : List EntrySim) : List RawResult :=
  (items.map (fun it => it.dataR :: it.metaR.toList)).join

/-- A diagnostics result is readable by the `MetaReader` when it has at
least the two key/value columns `SHOW META` produces. -/
def EntrySim.metaWF (it : EntrySim) : Bool :=
  match it.metaR with
  | none => true
  | some m => decide (2 ≤ m.cols)

/-- Total restatement of the `MetaReader` loop for a readable
diagnostics result (at least two columns, so no bounds failure). -/
def metaFoldT :
    List (List (Option String)) → List (String × String) → List (String × String)
  | [], acc => acc
  | r :: rest, acc =>
    let k := convertResultStr (r.getD 0 none) ""
    let v := convertResultStr (r.getD 1 none) ""
    metaFoldT rest (if k = "" then acc else metaInsert acc k v)

/-- The Result the demultiplexer should assemble for an entry: the
entry's data result, with the diagnostics map merged exactly when the
entry requested diagnostics. -/
def expectedResult (it : EntrySim) : ResultM :=
  { raw := it.dataR, cursor := 0,
    metaVals := it.metaR.map (fun m => metaFoldT m.rows []) }

/-- A connection prepared for one dispatch of the given entries, with
the daemon's matching reply pending. -/
def connOf (items : List EntrySim) : ConnSim :=
  ⟨⟨true, true, entriesOf items, streamOf items⟩, true, true⟩

lemma metaReadRow_ok (cols : Nat) (h : 2 ≤ cols) (r : List (Option String)) :
    metaReadRow cols r =
      .ok (convertResultStr (r.getD 0 none) "", convertResultStr (r.getD 1 none) "") := by
  have h1 : 0 < cols := by omega
  have h2 : 1 < cols := by omega
  simp only [metaReadRow, if_pos h1, if_pos h2]
  rfl

lemma metaLoop_ok (cols : Nat) (h : 2 ≤ cols) :
    ∀ (rows : List (List (Option String))) (acc : List (String × String)),
      metaLoop cols rows acc = .ok (metaFoldT rows acc)
  | [], acc => by simp [metaLoop, metaFoldT]
  | r :: rest, acc => by
    have h0 : ¬ cols = 0 := by omega
    rw [metaLoop, if_neg h0, metaReadRow_ok cols h r, metaFoldT]
    exact metaLoop_ok cols h rest _

lemma metaValues_ok (m : RawResult) (h : 2 ≤ m.cols) :
    metaValues m = .ok (metaFoldT m.rows []) := by
  simp [metaValues, metaLoop_ok m.cols h]

lemma nextResult_cons (st : QueryData) (r : RawResult) (rest : List RawResult)
    (h : st.stream = r :: rest) :
    st.nextResult = (.ok (mkResult r),
      { st with firstToRetrieve := false, stream := rest }) := by
  cases st with
  | mk conn first qs stream =>
    cases first <;> simp_all [QueryData.nextResult, QueryData.storeResult]

lemma fillLoop_ok :
    ∀ (items : List EntrySim) (st : QueryData) (rest : List RawResult),
      st.stream = streamOf items ++ rest →
      (∀ it ∈ items, it.metaWF = true) →
      ∃ b, fillLoop (entriesOf items) st =
        (.ok (items.map expectedResult),
         { st with firstToRetrieve := b, stream := rest })
  | [], st, rest, hs, _ => by
    refine ⟨st.firstToRetrieve, ?_⟩
    simp only [streamOf, List.map_nil, List.join, List.nil_append] at hs
    cases st
    simp_all [entriesOf, fillLoop]
  | it :: items, st, rest, hs, hwf => by
    have hs1 : st.stream = it.dataR :: (it.metaR.toList ++ (streamOf items ++ rest)) := by
      simp only [streamOf, List.map_cons, List.join] at hs
      simpa using hs
    have hn1 := nextResult_cons st it.dataR _ hs1
    have hwf1 : it.metaWF = true := hwf it (by simp)
    have hwfr : ∀ j ∈ items, j.metaWF = true := fun j hj => hwf j (by simp [hj])
    cases hm : it.metaR with
    | none =>
      have hstep : fillStep it.entry st =
          (.ok (mkResult it.dataR),
           { st with firstToRetrieve := false, stream := streamOf items ++ rest }) := by
        simp [fillStep, hn1, EntrySim.entry, hm]
      obtain ⟨b, hrec⟩ := fillLoop_ok items
        { st with firstToRetrieve := false, stream := streamOf items ++ rest }
        rest rfl hwfr
      refine ⟨b, ?_⟩
      simp only [entriesOf, List.map_cons] at hrec ⊢
      simp [fillLoop, hstep, hrec, expectedResult, hm, mkResult]
    | some m =>
      have hm2 : 2 ≤ m.cols := by
        simpa [EntrySim.metaWF, hm] using hwf1
      have hlist : it.metaR.toList ++ (streamOf items ++ rest) =
          m :: (streamOf items ++ rest) := by simp [hm]
      rw [hlist] at hn1
      have hn2 := nextResult_cons
        { st with firstToRetrieve := false, stream := m :: (streamOf items ++ rest) }
        m (streamOf items ++ rest) rfl
      have hstep : fillStep it.entry st =
          (.ok (expectedResult it),
           { st with firstToRetrieve := false, stream := streamOf items ++ rest }) := by
        simp only [fillStep, hn1, EntrySim.entry, hm, Option.isSome_some, if_true]
        simp only [hn2]
        simp [ResultM.addMeta, metaValues_ok m hm2, mkResult, expectedResult, hm]
      obtain ⟨b, hrec⟩ := fillLoop_ok items
        { st with firstToRetrieve := false, stream := streamOf items ++ rest }
        rest rfl hwfr
      refine ⟨b, ?_⟩
      simp only [entriesOf, List.map_cons] at hrec ⊢
      simp [fillLoop, hstep, hrec]

/-- The payload as the spec words it: the concatenation of the
statement texts in registration order, with the fixed
diagnostics-request statement inserted immediately after each entry
whose wants-diagnostics flag is set, and nothing else added. -/
def payloadSpec : List (String × Bool) → String
  | [] => ""
  | q :: rest => q.1 ++ (if q.2 then "SHOW META; " else "") ++ payloadSpec rest

lemma getQueryString_acc :
    ∀ (qs : List (String × Bool)) (acc : String),
      qs.foldl (fun acc q => acc ++ q.1 ++ (if q.2 then "SHOW META; " else "")) acc =
        acc ++ payloadSpec qs
  | [], acc => by simp [payloadSpec, String.append_empty]
  | q :: rest, acc => by
    simp only [List.foldl, payloadSpec]
    rw [getQueryString_acc rest]
    simp [String.append_assoc]

lemma assocFind_map_keep :
    ∀ (m : List (String × Nat)) (k f : String) (v : Nat), ¬ f = k →
      assocFind (m.map (fun p => if p.1 = k then (k, v) else p)) f = assocFind m f
  | [], _, _, _, _ => by simp
  | p :: m, k, f, v, h => by
    obtain ⟨a, b⟩ := p
    by_cases hp : a = k
    · subst hp
      simp [assocFind, h, assocFind_map_keep m _ f v h]
    · by_cases hf : f = a
      · subst hf
        simp [assocFind, hp]
      · simp [assocFind, hp, hf, assocFind_map_keep m _ f v h]

lemma assocFind_append_single_ne :
    ∀ (m : List (String × Nat)) (k f : String) (v : Nat), ¬ f = k →
      assocFind (m ++ [(k, v)]) f = assocFind m f
  | [], k, f, v, h => by simp [assocFind, h]
  | p :: m, k, f, v, h => by
    obtain ⟨a, b⟩ := p
    by_cases hf : f = a
    · subst hf
      simp [assocFind]
    · simp [assocFind, hf, assocFind_append_single_ne m k f v h]

lemma assocFind_mapAssign_ne (m : List (String × Nat)) (k f : String) (v : Nat)
    (h : ¬ f = k) : assocFind (mapAssign m k v) f = assocFind m f := by
  unfold mapAssign
  split
  · exact assocFind_map_keep m k f v h
  · exact assocFind_append_single_ne m k f v h

lemma foldl_mapAssign_assocFind :
    ∀ (ps : List (Nat × String)) (acc : List (String × Nat)) (f : String),
      (∀ p ∈ ps, ¬ f = p.2) →
      assocFind (ps.foldl (fun m p => mapAssign m p.2 p.1) acc) f = assocFind acc f
  | [], _, _, _ => rfl
  | p :: ps, acc, f, h => by
    simp only [List.foldl]
    rw [foldl_mapAssign_assocFind ps _ f (fun q hq => h q (by simp [hq]))]
    exact assocFind_mapAssign_ne acc p.2 f p.1 (h p (by simp))

lemma buildIndex_find_none (names : List String) (f : String)
    (h : f ∉ names) : assocFind (buildIndex names) f = none := by
  unfold buildIndex
  rw [foldl_mapAssign_assocFind]
  · rfl
  · intro p hp hfp
    refine h ?_
    rw [← List.enum_map_snd names]
    rw [hfp]
    exact List.mem_map_of_mem Prod.snd hp

/-- Iterated application of the sequential read-and-advance accessor. -/
def shiftReadN {α : Type} (conv : Option String → α → α) :
    Nat → Row → α → Except SqlError (α × Row)
  | 0, row, v => .ok (v, row)
  | n + 1, row, v =>
    match Row.shiftRead conv row v with
    | .error er => .error er
    | .ok (w, row') => shiftReadN conv n row' w

lemma shiftRead_ok_inv {α : Type} (conv : Option String → α → α) (row : Row)
    (v w : α) (row' : Row) (h : Row.shiftRead conv row v = .ok (w, row')) :
    row.fieldIter < row.fields ∧
      row' = { row with fieldIter := row.fieldIter + 1 } := by
  by_cases hb : row.fieldIter < row.fields
  · refine ⟨hb, ?_⟩
    simp only [Row.shiftRead, if_pos hb, Except.ok.injEq, Prod.mk.injEq] at h
    exact h.2.symm
  · simp [Row.shiftRead, if_neg hb] at h

lemma shiftReadN_ok_bound {α : Type} (conv : Option String → α → α) :
    ∀ (n : Nat) (row : Row) (v w : α) (row' : Row),
      shiftReadN conv (n + 1) row v = .ok (w, row') →
      row.fieldIter + (n + 1) ≤ row.fields := by
  intro n
  induction n with
  | zero =>
    intro row v w row' h
    simp only [shiftReadN] at h
    cases hs : Row.shiftRead conv row v with
    | error er => rw [hs] at h; cases h
    | ok p =>
      obtain ⟨hb, _⟩ := shiftRead_ok_inv conv row v p.1 p.2 (by rw [hs])
      omega
  | succ m ih =>
    intro row v w row' h
    rw [shiftReadN] at h
    cases hs : Row.shiftRead conv row v with
    | error er => rw [hs] at h; cases h
    | ok p =>
      rw [hs] at h
      obtain ⟨hb, hrow⟩ := shiftRead_ok_inv conv row v p.1 p.2 (by rw [hs])
      have := ih p.2 p.1 w row' (by obtain ⟨a, b⟩ := p; exact h)
      rw [hrow] at this
      simp only at this
      omega

lemma fillAsync_ok :
    ∀ (connItems : List (List EntrySim)),
      (∀ l ∈ connItems, ∀ it ∈ l, it.metaWF = true) →
      ∃ cs, fillAsync (connItems.map connOf) =
        (.ok ((connItems.map (fun l => l.map expectedResult)).join), cs)
  | [], _ => ⟨[], by simp [fillAsync]⟩
  | l :: ls, hwf => by
    obtain ⟨b, hfill⟩ := fillLoop_ok l (connOf l).qd []
      (by simp [connOf]) (hwf l (by simp))
    obtain ⟨cs, hrec⟩ := fillAsync_ok ls (fun j hj => hwf j (by simp [hj]))
    refine ⟨{ connOf l with
        qd := { (connOf l).qd with firstToRetrieve := b, stream := [] } } :: cs, ?_⟩
    have hfill2 : (connOf l).qd.fill =
        (Except.ok (List.map expectedResult l),
          { (connOf l).qd with firstToRetrieve := b, stream := [] }) := hfill
    simp only [List.map_cons, fillAsync]
    rw [hfill2, hrec]
    simp

/-- Repeated `Response::next` pulls, `n` of them. -/
def drainN : Nat → List ResultM → List ResultM
  | 0, _ => []
  | n + 1, resp =>
    match responseNext resp with
    | (none, _) => []
    | (some r, rest) => r :: drainN n rest

lemma drainN_all : ∀ (resp : List ResultM) (n : Nat),
    resp.length ≤ n → drainN n resp = resp
  | [], n, _ => by cases n <;> simp [drainN, responseNext]
  | r :: resp, n + 1, h => by
    simp only [drainN, responseNext]
    rw [drainN_all resp n (by simpa using h)]

/-- Sample data result used by witnesses: one `id` column, a value row
and a NULL row. -/
def rawData1 : RawResult := ⟨1, ["id"], [[some "219"], [none]]⟩

/-- Sample diagnostics result used by witnesses, in `SHOW META` shape. -/
def rawMeta1 : RawResult :=
  ⟨2, ["Variable_name", "Value"],
    [[some "total", some "2"], [some "", some "skipped"],
     [some "total_found", some "2"]]⟩

/-- Sample entry registered with wants-diagnostics. -/
def entM : EntrySim := ⟨"SELECT id FROM idx_test; ", rawData1, some rawMeta1⟩

/-- Sample entry registered without diagnostics. -/
def entP : EntrySim := ⟨"SELECT id FROM idx_test; ", rawData1, none⟩

/-- Claim C1: across however many connections participate, the response holds
exactly one Result per registered entry, in registration order; each
wants-diagnostics entry's extra raw result set is pulled immediately
after its data result and merged into it (`expectedResult`), never
delivered on its own; and repeated `Response::next` calls yield the
queued Results in that exact order. -/
theorem response_delivery_order
    (connItems : List (List EntrySim))
    (hwf : ∀ l ∈ connItems, ∀ it ∈ l, it.metaWF = true) :
    (∃ cs, fillAsync (connItems.map connOf) =
        (.ok ((connItems.map (fun l => l.map expectedResult)).join), cs))
    ∧ (∀ (resp : List ResultM) (n : Nat), resp.length ≤ n → drainN n resp = resp)
    ∧ (∀ it : EntrySim, (expectedResult it).raw = it.dataR
        ∧ (expectedResult it).metaVals.isSome = it.metaR.isSome) := by
  refine ⟨fillAsync_ok connItems hwf, drainN_all, ?_⟩
  intro it
  cases hm : it.metaR <;> simp [expectedResult, hm]

/-- Witness for claim C1: two connections, the first carrying a
diagnostics-flagged entry followed by a plain one, the second one plain
entry. -/
theorem response_delivery_order_witness :
    ∃ cs, fillAsync ([[entM, entP], [entP]].map connOf) =
      (.ok (([[entM, entP], [entP]].map (fun l => l.map expectedResult)).join), cs) :=
  (response_delivery_order [[entM, entP], [entP]] (by decide)).1

/-- Claim C3: the transmitted payload is exactly the concatenation of the
statement texts in registration order with `"SHOW META; "` inserted
immediately after each wants-diagnostics entry, and nothing else. -/
theorem payload_concatenation (qs : List (String × Bool)) :
    getQueryString qs = payloadSpec qs := by
  unfold getQueryString
  rw [getQueryString_acc, String.empty_append]

/-- Claim C4: the first `nextResult` after a dispatch stores the first
pending result set unconditionally; later calls return a result only
when the transport still has pending results, and otherwise fail with
the `"No result returned"` protocol error. -/
theorem nextResult_first_then_more
    (st : QueryData) (r : RawResult) (rest : List RawResult) :
    (st.firstToRetrieve = true → st.stream = r :: rest →
        st.nextResult = (.ok (mkResult r),
          { st with firstToRetrieve := false, stream := rest }))
    ∧ (st.firstToRetrieve = false → st.stream = r :: rest →
        st.nextResult = (.ok (mkResult r), { st with stream := rest }))
    ∧ (st.firstToRetrieve = false → st.stream = [] →
        st.nextResult = (.error (.exc "No result returned"), st)) := by
  refine ⟨fun _ hs => nextResult_cons st r rest hs, fun hf hs => ?_, fun hf hs => ?_⟩
  · rw [nextResult_cons st r rest hs]
    cases st
    simp_all
  · cases st
    simp_all [QueryData.nextResult]

/-- Witness for claim C4. -/
theorem nextResult_first_then_more_witness :
    (⟨true, true, [], [rawData1]⟩ : QueryData).nextResult =
        (.ok (mkResult rawData1), ⟨true, false, [], []⟩)
    ∧ (⟨true, false, [], []⟩ : QueryData).nextResult =
        (.error (.exc "No result returned"), ⟨true, false, [], []⟩) :=
  ⟨(nextResult_first_then_more ⟨true, true, [], [rawData1]⟩ rawData1 []).1 rfl rfl,
    (nextResult_first_then_more ⟨true, false, [], []⟩ rawData1 []).2.2 rfl rfl⟩

/-- Claim C5: `getMeta` fails (with the usage error `"No SHOW META result."`)
exactly when no diagnostics map was merged into the Result; when the
map exists but lacks the key, it returns the empty string; and the
demultiplexer merges a map exactly for entries flagged
wants-diagnostics. -/
theorem getMeta_requires_diagnostics :
    (∀ (res : ResultM) (name : String), res.metaVals = none →
        res.getMeta name = .error (.exc "No SHOW META result."))
    ∧ (∀ (res : ResultM) (m : List (String × String)) (name : String),
        res.metaVals = some m → assocFind m name = none →
        res.getMeta name = .ok "")
    ∧ (∀ (res : ResultM) (name : String) (e : SqlError),
        res.getMeta name = .error e → res.metaVals = none)
    ∧ (∀ it : EntrySim,
        (expectedResult it).metaVals.isSome = it.metaR.isSome) := by
  refine ⟨?_, ?_, ?_, ?_⟩
  · intro res name h
    simp [ResultM.getMeta, h]
  · intro res m name hm hf
    simp [ResultM.getMeta, hm, hf]
  · intro res name e h
    cases hm : res.metaVals with
    | none => rfl
    | some m => simp [ResultM.getMeta, hm] at h
  · intro it
    cases hm : it.metaR <;> simp [expectedResult, hm]

/-- Witness for claim C5: a Result with no merged map fails, one whose map lacks
the key yields the empty string. -/
theorem getMeta_requires_diagnostics_witness :
    (mkResult rawData1).getMeta "total" = .error (.exc "No SHOW META result.")
    ∧ ResultM.getMeta ⟨rawData1, 0, some [("total", "2")]⟩ "missing" = .ok "" :=
  ⟨getMeta_requires_diagnostics.1 (mkResult rawData1) "total" rfl,
    getMeta_requires_diagnostics.2.1 ⟨rawData1, 0, some [("total", "2")]⟩
      [("total", "2")] "missing" rfl (by decide)⟩

/-- Claim C6: the read-and-advance accessor passes the destination's prior
value as the conversion default, so a NULL cell leaves it unchanged;
and every `convertResult` scalar specialization returns the
caller-supplied default on NULL or unparsable input and the parsed
value otherwise (`convertResultStr` copies text directly, so only NULL
yields the default there). -/
theorem convertResult_contract :
    (∀ (α : Type) (parse : String → Option α) (row : Row) (v : α),
        row.fieldIter < row.fields → row.data.getD row.fieldIter none = none →
        Row.shiftRead (convertResultNum parse) row v =
          .ok (v, { row with fieldIter := row.fieldIter + 1 }))
    ∧ (∀ (row : Row) (v : String),
        row.fieldIter < row.fields → row.data.getD row.fieldIter none = none →
        Row.shiftRead convertResultStr row v =
          .ok (v, { row with fieldIter := row.fieldIter + 1 }))
    ∧ (∀ (α : Type) (parse : String → Option α) (d : α),
        convertResultNum parse none d = d)
    ∧ (∀ (α : Type) (parse : String → Option α) (s : String) (d : α),
        parse s = none → convertResultNum parse (some s) d = d)
    ∧ (∀ (α : Type) (parse : String → Option α) (s : String) (v d : α),
        parse s = some v → convertResultNum parse (some s) d = v)
    ∧ (∀ d : String, convertResultStr none d = d)
    ∧ (∀ s d : String, convertResultStr (some s) d = s)
    ∧ convertResultI32 = convertResultNum parseI32
    ∧ convertResultI64 = convertResultNum parseI64
    ∧ convertResultU32 = convertResultNum parseU32
    ∧ convertResultU64 = convertResultNum parseU64 := by
  refine ⟨?_, ?_, ?_, ?_, ?_, ?_, ?_, rfl, rfl, rfl, rfl⟩
  · intro α parse row v hb hnull
    unfold Row.shiftRead
    rw [if_pos hb, hnull]
    rfl
  · intro row v hb hnull
    unfold Row.shiftRead
    rw [if_pos hb, hnull]
    rfl
  · intro α parse d
    rfl
  · intro α parse s d h
    simp [convertResultNum, h]
  · intro α parse s v d h
    simp [convertResultNum, h]
  · intro d
    rfl
  · intro s d
    rfl

/-- Witness for claim C6: a NULL cell leaves the prior value 7 in place; an
unparsable string falls back to the default; parsable text parses. -/
theorem convertResult_contract_witness :
    Row.shiftRead (convertResultNum parseU32) ⟨true, [none], 1, 0⟩ 7 =
        .ok (7, ⟨true, [none], 1, 1⟩)
    ∧ convertResultNum parseU32 (some "abc") 5 = 5
    ∧ convertResultNum parseU32 (some "219") 5 = 219 :=
  ⟨convertResult_contract.1 Nat parseU32 ⟨true, [none], 1, 0⟩ 7 (by decide) rfl,
    convertResult_contract.2.2.2.1 Nat parseU32 "abc" 5 (by decide),
    convertResult_contract.2.2.2.2.1 Nat parseU32 "219" 219 5 (by decide)⟩

/-- Claim C8: a synchronous execute fails with `TimeoutException` exactly
when the transport's failure code is the distinguished server-gone or
connection-lost code, with a plain `Exception` for every other nonzero
code, and succeeds on zero. -/
theorem execute_timeout_distinction :
    (∀ msg : String, executeStatus 0 msg = .ok ())
    ∧ (∀ (status : Nat) (msg : String), status ≠ 0 →
        (executeStatus status msg = .error (.timeout msg) ↔
          (status = CR_SERVER_GONE_ERROR ∨ status = CR_SERVER_LOST)))
    ∧ (∀ (status : Nat) (msg : String), status ≠ 0 →
        ¬ (status = CR_SERVER_GONE_ERROR ∨ status = CR_SERVER_LOST) →
        executeStatus status msg = .error (.exc msg)) := by
  refine ⟨fun msg => rfl, ?_, ?_⟩
  · intro status msg h
    by_cases hc : status = CR_SERVER_GONE_ERROR ∨ status = CR_SERVER_LOST
    · simp [executeStatus, h, hc]
    · simp [executeStatus, h, hc]
  · intro status msg h hc
    simp [executeStatus, h, hc]

/-- Witness for claim C8: codes 2006 and 2013 raise the timeout error, code 1045
raises the plain exception. -/
theorem execute_timeout_distinction_witness :
    (executeStatus 2006 "gone" = .error (.timeout "gone") ↔
      (2006 = CR_SERVER_GONE_ERROR ∨ 2006 = CR_SERVER_LOST))
    ∧ (executeStatus 2013 "lost" = .error (.timeout "lost") ↔
      (2013 = CR_SERVER_GONE_ERROR ∨ 2013 = CR_SERVER_LOST))
    ∧ executeStatus 1045 "denied" = .error (.exc "denied") :=
  ⟨execute_timeout_distinction.2.1 2006 "gone" (by decide),
    execute_timeout_distinction.2.1 2013 "lost" (by decide),
    execute_timeout_distinction.2.2 1045 "denied" (by decide) (by decide)⟩

/-- Claim C9: indexed row access past the column count fails with the
out-of-range error, and resolving an absent column name — directly via
the column index or through `getValue` — fails with the out-of-range
not-found error. -/
theorem out_of_range_errors :
    (∀ (row : Row) (idx : Nat), row.fields ≤ idx →
        row.get idx =
          .error (.outOfRange ("Row column out of range: " ++ toString idx)))
    ∧ (∀ (names : List String) (f : String), f ∉ names →
        getFieldIndex (buildIndex names) f =
          .error (.outOfRange ("No such field in result set: " ++ f)))
    ∧ (∀ (res : ResultM) (f : String), f ∉ res.raw.colNames →
        res.getColumnIndex f =
          .error (.outOfRange ("No such field in result set: " ++ f)))
    ∧ (∀ (α : Type) (conv : Option String → α → α) (d : α) (res : ResultM)
        (row : Row) (f : String), row.origin = true → f ∉ res.raw.colNames →
        Row.getValueWith conv d res row f =
          .error (.outOfRange ("No such field in result set: " ++ f))) := by
  have hidx : ∀ (names : List String) (f : String), f ∉ names →
      getFieldIndex (buildIndex names) f =
        .error (.outOfRange ("No such field in result set: " ++ f)) := by
    intro names f h
    simp [getFieldIndex, buildIndex_find_none names f h]
  refine ⟨?_, hidx, ?_, ?_⟩
  · intro row idx h
    simp [Row.get, Nat.not_lt.mpr h]
  · intro res f h
    exact hidx res.raw.colNames f h
  · intro α conv d res row f hor h
    have hcol := hidx res.raw.colNames f h
    simp only [Row.getValueWith, hor, if_true, ResultM.getColumnIndex, hcol]
    rfl

/-- Witness for claim C9: index 2 in a one-column row, and the absent column name
`"missing"`, both fail with the out-of-range errors. -/
theorem out_of_range_errors_witness :
    Row.get ⟨true, [some "219"], 1, 0⟩ 2 =
        .error (.outOfRange "Row column out of range: 2")
    ∧ (mkResult rawData1).getColumnIndex "missing" =
        .error (.outOfRange "No such field in result set: missing") :=
  ⟨out_of_range_errors.1 ⟨true, [some "219"], 1, 0⟩ 2 (by decide),
    out_of_range_errors.2.2.1 (mkResult rawData1) "missing" (by decide)⟩

/-- Claim C10: the read-and-advance accessor bounds-checks its cursor before
every read: it fails with the out-of-range error whenever the cursor
has reached the column count (in particular on a default-constructed
row, whose size is zero), every successful read happened strictly
inside the column range and advanced the cursor by one, and applying
the accessor more than `size()` times from a fresh row cannot succeed. -/
theorem shiftRead_bounds :
    (∀ (α : Type) (conv : Option String → α → α) (row : Row) (v : α),
        row.fields ≤ row.fieldIter →
        Row.shiftRead conv row v =
          .error (.outOfRange ("Row column out of range: " ++ toString row.fieldIter)))
    ∧ (∀ (α : Type) (conv : Option String → α → α) (v : α),
        Row.shiftRead conv Row.mkEmpty v =
          .error (.outOfRange "Row column out of range: 0"))
    ∧ (∀ (α : Type) (conv : Option String → α → α) (row : Row) (v w : α)
        (row' : Row), Row.shiftRead conv row v = .ok (w, row') →
        row.fieldIter < row.fields ∧
          row' = { row with fieldIter := row.fieldIter + 1 })
    ∧ (∀ (α : Type) (conv : Option String → α → α) (row : Row) (v : α)
        (n : Nat), row.fieldIter = 0 → row.fields < n →
        (shiftReadN conv n row v).isOk = false) := by
  refine ⟨?_, ?_, ?_, ?_⟩
  · intro α conv row v h
    simp [Row.shiftRead, Nat.not_lt.mpr h]
  · intro α conv v
    rfl
  · intro α conv row v w row' h
    exact shiftRead_ok_inv conv row v w row' h
  · intro α conv row v n h0 hn
    cases n with
    | zero => omega
    | succ m =>
      cases hr : shiftReadN conv (m + 1) row v with
      | error er => rfl
      | ok p =>
        have := shiftReadN_ok_bound conv m row v p.1 p.2 (by rw [hr])
        omega

/-- Witness for claim C10: a default-constructed row fails on the first read, and
reading a one-column row twice cannot succeed. -/
theorem shiftRead_bounds_witness :
    Row.shiftRead (convertResultNum parseU32) Row.mkEmpty 3 =
        .error (.outOfRange "Row column out of range: 0")
    ∧ (shiftReadN (convertResultNum parseU32) 2 ⟨true, [some "1"], 1, 0⟩ 3).isOk
        = false :=
  ⟨shiftRead_bounds.2.1 Nat (convertResultNum parseU32) 3,
    shiftRead_bounds.2.2.2 Nat (convertResultNum parseU32)
      ⟨true, [some "1"], 1, 0⟩ 3 2 rfl (by decide)⟩

lemma sendAll_length :
    ∀ (reply : Nat → List RawResult) (i : Nat) (conns conns' : List ConnSim),
      sendAll reply i conns = .ok conns' → conns'.length = conns.length
  | _, _, [], conns', h => by
    simp only [sendAll, Except.ok.injEq] at h
    simp [← h]
  | reply, i, c :: conns, conns', h => by
    simp only [sendAll] at h
    cases hs : c.asyncExecute (reply i) with
    | error er => rw [hs] at h; cases h
    | ok c1 =>
      rw [hs] at h
      cases hr : sendAll reply (i + 1) conns with
      | error er => rw [hr] at h; cases h
      | ok rest' =>
        rw [hr] at h
        cases h
        simp [sendAll_length reply (i + 1) conns rest' hr]

lemma fillAsync_length :
    ∀ conns : List ConnSim, (fillAsync conns).2.length = conns.length
  | [] => rfl
  | c :: conns => by
    simp only [fillAsync]
    cases hf : c.qd.fill with
    | mk r qd' =>
      cases r with
      | error er => simp
      | ok rs =>
        cases hr : fillAsync conns with
        | mk r2 rest' =>
          cases r2 with
          | error er =>
            have := fillAsync_length conns
            rw [hr] at this
            simp_all
          | ok more =>
            have := fillAsync_length conns
            rw [hr] at this
            simp_all

/-- The round used by the C2 counterexample: one connection whose
single entry requests diagnostics, while the daemon's reply carries
only the data result — the demultiplexer then fails with
`"No result returned"` after send and wait succeeded. -/
def cexConn : ConnSim :=
  ⟨⟨true, true, [("SELECT id FROM idx_test; ", true)], []⟩, true, true⟩

/-- Pool/round state for the C2 counterexample. -/
def cexSt : AsyncSt := ⟨[], [cexConn], 3⟩

/-- Daemon reply for the C2 counterexample: the data result only. -/
def cexReply : Nat → List RawResult := fun _ => [rawData1]

/-- Counterexample for claim C2: a demultiplexing failure does propagate and no
Results are delivered, but the round's connection is NOT discarded —
the scoped cleanup clears it and returns it to the pool (pool size 1
after the failed round), contradicting the claim that every connection
in a failed round is dropped rather than returned to the pool. -/
theorem launch_demux_failure_pools_connection :
    (cexSt.launch cexReply).1 = .error (.exc "No result returned")
    ∧ (cexSt.launch cexReply).2.connections.length = 1 := by
  constructor
  · rfl
  · rfl

/-- Claim C2 as amended: a failure in the send or wait phase aborts the round
atomically — the error propagates, no Results are delivered, and every
round connection is discarded (not pooled).  A failure in the result
demultiplexing phase still propagates the error and delivers no
Results, but the round's connections are cleared and returned to the
pool (one per participant) instead of being discarded. -/
theorem launch_round_failure_amended :
    (∀ (reply : Nat → List RawResult) (st : AsyncSt) (er : SqlError),
        sendAll reply 0 st.queries = .error er →
        st.launch reply = (.error er, { st with connections := [], queries := [] }))
    ∧ (∀ (reply : Nat → List RawResult) (st : AsyncSt) (qs1 : List ConnSim)
        (er : SqlError), sendAll reply 0 st.queries = .ok qs1 →
        waitAll qs1 = .error er →
        st.launch reply = (.error er, { st with connections := [], queries := [] }))
    ∧ (∀ (reply : Nat → List RawResult) (st : AsyncSt) (qs1 cs : List ConnSim)
        (rs : Except SqlError (List ResultM)),
        sendAll reply 0 st.queries = .ok qs1 →
        waitAll qs1 = .ok () →
        fillAsync qs1 = (rs, cs) →
        st.launch reply =
          (rs, { st with connections := cs.map ConnSim.clearConn, queries := [] })
        ∧ cs.length = st.queries.length) := by
  refine ⟨?_, ?_, ?_⟩
  · intro reply st er h
    simp [AsyncSt.launch, h]
  · intro reply st qs1 er hs hw
    simp [AsyncSt.launch, hs, hw]
  · intro reply st qs1 cs rs hs hw hf
    constructor
    · simp [AsyncSt.launch, hs, hw, hf]
    · have h1 := fillAsync_length qs1
      rw [hf] at h1
      simp only at h1
      rw [h1]
      exact sendAll_length reply 0 st.queries qs1 hs

/-- Witness for the amended claim C2: a failing send aborts the round and empties the
round's connection set. -/
theorem launch_round_failure_amended_witness :
    AsyncSt.launch cexReply ⟨[], [⟨⟨true, true, [("q; ", false)], []⟩, false, true⟩], 2⟩ =
      (.error (.exc "mysql_send_query failed: "),
        { (⟨[], [⟨⟨true, true, [("q; ", false)], []⟩, false, true⟩], 2⟩ : AsyncSt) with
            connections := [], queries := [] }) :=
  launch_round_failure_amended.1 cexReply
    ⟨[], [⟨⟨true, true, [("q; ", false)], []⟩, false, true⟩], 2⟩
    (.exc "mysql_send_query failed: ") rfl

/-- A connection whose pending dispatch is one plain entry and whose
transport calls succeed — the shape every pooled idle connection takes
after a single-statement `add`. -/
def ConnReady (c : ConnSim) : Prop :=
  c.sendOk = true ∧ c.waitOk = true ∧ ∃ s, c.qd.queries = [(s, false)]

lemma addAll_ready :
    ∀ (stmts : List String) (pool qs : List ConnSim) (c0 : Nat),
      pool.length = stmts.length →
      (∀ c ∈ pool, c.qd.queries = [] ∧ c.sendOk = true ∧ c.waitOk = true) →
      ∃ conns, AsyncSt.addAll ⟨pool, qs, c0⟩ stmts = ⟨[], qs ++ conns, c0⟩ ∧
        conns.length = stmts.length ∧ ∀ c ∈ conns, ConnReady c
  | [], pool, qs, c0, hlen, _ => by
    have : pool = [] := List.length_eq_zero.mp (by simpa using hlen)
    subst this
    exact ⟨[], by simp [AsyncSt.addAll], rfl, by simp⟩
  | q :: stmts, [], _, _, hlen, _ => by simp at hlen
  | q :: stmts, c :: pool, qs, c0, hlen, hpool => by
    have hc := hpool c (by simp)
    have hstep : AsyncSt.add ⟨c :: pool, qs, c0⟩ q false =
        ⟨pool, qs ++ [{ c with qd := c.qd.addQuery q false }], c0⟩ := rfl
    obtain ⟨conns, hrec, hlen2, hready⟩ := addAll_ready stmts pool
      (qs ++ [{ c with qd := c.qd.addQuery q false }]) c0
      (by simpa using hlen) (fun d hd => hpool d (by simp [hd]))
    refine ⟨{ c with qd := c.qd.addQuery q false } :: conns, ?_, by simp [hlen2], ?_⟩
    · have : AsyncSt.addAll ⟨c :: pool, qs, c0⟩ (q :: stmts) =
          AsyncSt.addAll ⟨pool, qs ++ [{ c with qd := c.qd.addQuery q false }], c0⟩
            stmts := rfl
      rw [this, hrec]
      simp
    · intro d hd
      rcases List.mem_cons.mp hd with hd | hd
      · subst hd
        exact ⟨hc.2.1, hc.2.2, q, by simp [QueryData.addQuery, hc.1]⟩
      · exact hready d hd

lemma fill_single (qd : QueryData) (s : String) (r : RawResult)
    (rest : List RawResult) (hq : qd.queries = [(s, false)])
    (hs : qd.stream = r :: rest) :
    qd.fill = (.ok [mkResult r],
      { qd with firstToRetrieve := false, stream := rest }) := by
  have hnext := nextResult_cons qd r rest hs
  simp [QueryData.fill, hq, fillLoop, fillStep, hnext]

lemma round_ok :
    ∀ (conns : List ConnSim) (reply : Nat → List RawResult) (i0 : Nat),
      (∀ c ∈ conns, ConnReady c) → (∀ i, reply i ≠ []) →
      ∃ qs1 rs cs, sendAll reply i0 conns = .ok qs1 ∧ waitAll qs1 = .ok () ∧
        fillAsync qs1 = (.ok rs, cs) ∧ cs.length = conns.length
  | [], reply, i0, _, _ => ⟨[], [], [], rfl, rfl, rfl, rfl⟩
  | c :: conns, reply, i0, hready, hreply => by
    obtain ⟨hsend, hwait, s, hq⟩ := hready c (by simp)
    obtain ⟨r, rest, hrepl⟩ := List.exists_cons_of_ne_nil (hreply i0)
    obtain ⟨qs1, rs, cs, hs1, hw1, hf1, hl1⟩ :=
      round_ok conns reply (i0 + 1) (fun d hd => hready d (by simp [hd])) hreply
    have hexec : c.asyncExecute (reply i0) =
        .ok { c with qd := { c.qd with firstToRetrieve := true, stream := reply i0 } } := by
      simp [ConnSim.asyncExecute, hsend]
    have hsall : sendAll reply i0 (c :: conns) =
        .ok ({ c with qd := { c.qd with firstToRetrieve := true, stream := reply i0 } }
          :: qs1) := by
      simp only [sendAll, hexec, hs1]
    have hwall : waitAll
        ({ c with qd := { c.qd with firstToRetrieve := true, stream := reply i0 } }
          :: qs1) = .ok () := by
      simp only [waitAll, ConnSim.waitForAsyncResult]
      simp [hwait, hw1]
    have hfillc := fill_single
      { c.qd with firstToRetrieve := true, stream := reply i0 } s r rest
      (by simp [hq]) (by simp [hrepl])
    have hfall : fillAsync
        ({ c with qd := { c.qd with firstToRetrieve := true, stream := reply i0 } }
          :: qs1) =
        (.ok (mkResult r :: rs),
          { c with qd := { c.qd with firstToRetrieve := false, stream := rest } }
            :: cs) := by
      simp only [fillAsync, hfillc, hf1]
      rfl
    exact ⟨_, mkResult r :: rs,
      { c with qd := { c.qd with firstToRetrieve := false, stream := rest } } :: cs,
      hsall, hwall, hfall, by simp [hl1]⟩

/-- Claim C7: a single-statement `add` draws the front pooled idle connection
when the pool is nonempty and constructs-and-connects a new one only
when the pool is empty; and in the `k`-idle-connection scenario, `k`
single-statement adds followed by a successful round and a clear leave
exactly `k` cleared idle connections in the pool with no net connection
creation, while a `(k+1)`-th add before the round creates exactly one
new connection. -/
theorem pool_reuse_no_net_creation :
    (∀ (st : AsyncSt) (w : ConnSim) (rest : List ConnSim) (q : String) (m : Bool),
        st.connections = w :: rest →
        st.add q m =
          { st with
            connections := rest
            queries := st.queries ++ [{ w with qd := w.qd.addQuery q m }] })
    ∧ (∀ (st : AsyncSt) (q : String) (m : Bool), st.connections = [] →
        st.add q m =
          { st with
            created := st.created + 1
            queries := st.queries ++
              [{ freshConn with qd := freshConn.qd.addQuery q m }] })
    ∧ (∀ (pool : List ConnSim) (stmts : List String)
        (reply : Nat → List RawResult) (c0 : Nat) (q : String),
        pool.length = stmts.length →
        (∀ c ∈ pool, c.qd.queries = [] ∧ c.sendOk = true ∧ c.waitOk = true) →
        (∀ i, reply i ≠ []) →
        (AsyncSt.addAll ⟨pool, [], c0⟩ stmts).created = c0
        ∧ (AsyncSt.addAll ⟨pool, [], c0⟩ stmts).connections = []
        ∧ (AsyncSt.addAll ⟨pool, [], c0⟩ stmts).queries.length = pool.length
        ∧ ((AsyncSt.addAll ⟨pool, [], c0⟩ stmts).add q false).created = c0 + 1
        ∧ ((AsyncSt.addAll ⟨pool, [], c0⟩ stmts).launch reply).1.isOk = true
        ∧ ((AsyncSt.addAll ⟨pool, [], c0⟩ stmts).launch reply).2.created = c0
        ∧ ((AsyncSt.addAll ⟨pool, [], c0⟩ stmts).launch reply).2.clearAll.connections.length
            = pool.length
        ∧ ∀ c ∈ ((AsyncSt.addAll ⟨pool, [], c0⟩ stmts).launch reply).2.connections,
            c.qd.queries = [] ∧ c.qd.firstToRetrieve = true) := by
  refine ⟨?_, ?_, ?_⟩
  · intro st w rest q m h
    cases st
    simp_all [AsyncSt.add]
  · intro st q m h
    cases st
    simp_all [AsyncSt.add]
  · intro pool stmts reply c0 q hlen hpool hreply
    obtain ⟨conns, haddall, hclen, hready⟩ := addAll_ready stmts pool [] c0 hlen hpool
    rw [haddall]
    simp only [List.nil_append]
    obtain ⟨qs1, rs, cs, hs1, hw1, hf1, hl1⟩ := round_ok conns reply 0 hready hreply
    have hlaunch : AsyncSt.launch reply ⟨[], conns, c0⟩ =
        (.ok rs, ⟨cs.map ConnSim.clearConn, [], c0⟩) := by
      simp [AsyncSt.launch, hs1, hw1, hf1]
    refine ⟨by simp, by simp, by simp [hclen, hlen], by simp [AsyncSt.add], ?_, ?_, ?_, ?_⟩
    · rw [hlaunch]
      rfl
    · rw [hlaunch]
    · rw [hlaunch]
      simp [AsyncSt.clearAll, hl1, hclen, hlen]
    · rw [hlaunch]
      intro c hc
      obtain ⟨d, _, hd⟩ := List.mem_map.mp hc
      rw [← hd]
      simp [ConnSim.clearConn, QueryData.clear]

/-- Witness for claim C7: one idle pooled connection, one single-statement add,
one successful round — no net creation, pool size back to one; the
second add (pool now empty) creates exactly one connection. -/
theorem pool_reuse_no_net_creation_witness :
    (AsyncSt.addAll ⟨[freshConn], [], 0⟩ ["SELECT id; "]).created = 0
    ∧ (AsyncSt.addAll ⟨[freshConn], [], 0⟩ ["SELECT id; "]).connections = []
    ∧ (AsyncSt.addAll ⟨[freshConn], [], 0⟩ ["SELECT id; "]).queries.length = 1
    ∧ ((AsyncSt.addAll ⟨[freshConn], [], 0⟩ ["SELECT id; "]).add "SELECT 2; " false).created = 1
    ∧ ((AsyncSt.addAll ⟨[freshConn], [], 0⟩ ["SELECT id; "]).launch cexReply).1.isOk = true
    ∧ ((AsyncSt.addAll ⟨[freshConn], [], 0⟩ ["SELECT id; "]).launch cexReply).2.created = 0
    ∧ ((AsyncSt.addAll ⟨[freshConn], [], 0⟩ ["SELECT id; "]).launch cexReply).2.clearAll.connections.length = 1
    ∧ ∀ c ∈ ((AsyncSt.addAll ⟨[freshConn], [], 0⟩ ["SELECT id; "]).launch cexReply).2.connections,
        c.qd.queries = [] ∧ c.qd.firstToRetrieve = true :=
  pool_reuse_no_net_creation.2.2 [freshConn] ["SELECT id; "] cexReply 0 "SELECT 2; "
    rfl (by decide) (fun _ => List.cons_ne_nil _ _)

end SphinxQLModel
